import Mathlib

/-!
Shallow embedding of the GC9D01 LCD driver (src/lib.rs).

The driver talks to three collaborators: an SPI bus (`bus.write`), a
data/command select pin (`dc`), and a reset pin (`rst`), plus a millisecond
timer.  We model a run of the driver as a pure state-passing computation:
the state `St` records how many operations of each kind have been issued and
the trace of externally visible events; an environment `Env` of failure
oracles decides, per operation index, whether that bus write or line set
fails and with which error value.  Machine integers are `Nat` with explicit
`% 2 ^ w` where the source casts (`as u8`, `u16` wrap-around); Rust panics
(out-of-bounds indexing / slicing) are a `Fault` outcome; the potentially
diverging `write_area` chunk loop takes explicit fuel and reports `timeout`
when the fuel runs out.
-/

namespace GC9D01

def BUF_SIZE : Nat := 24 * 48 * 2

def MAX_DATA_LEN : Nat := BUF_SIZE / 2

/-- `v as u8` in the source. -/
def u8 (v : Nat) : Nat := v % 256

/-- `(v >> 8) as u8` in the source. -/
def hi8 (v : Nat) : Nat := (v / 256) % 256

/-- `u16` wrap-around arithmetic (release-mode overflow semantics). -/
def u16 (v : Nat) : Nat := v % 65536

/- The `Instruction` enum of the source: symbolic opcodes as their byte
values (`Instruction as u8`). -/
namespace Instruction

def Nop : Nat := 0x00

def SwReset : Nat := 0x01

def SleepIn : Nat := 0x10

def SleepOut : Nat := 0x11

def NormalDisplayOn : Nat := 0x13

def DisplayInversionOff : Nat := 0x20

def DisplayInversionOn : Nat := 0x21

def DisplayOff : Nat := 0x28

def DisplayOn : Nat := 0x29

def ColumnAddressSet : Nat := 0x2A

def RowAddressSet : Nat := 0x2B

def MemoryWrite : Nat := 0x2C

def MemoryAccessControl : Nat := 0x36

def PixelFormatSet : Nat := 0x3A

def BlankingPorchControl : Nat := 0xB5

def DisplayFunctionControl : Nat := 0xB6

def DualSingleGateSelect : Nat := 0xBF

def PowerControl2 : Nat := 0xC3

def PowerControl3 : Nat := 0xC4

def InterRegisterEnable2 : Nat := 0xEF

def SetGamma1 : Nat := 0xF0

def SetGamma2 : Nat := 0xF1

def SetGamma3 : Nat := 0xF2

def SetGamma4 : Nat := 0xF3

def InterRegisterEnable1 : Nat := 0xFE

def Cmd80 : Nat := 0x80

def Cmd81 : Nat := 0x81

def Cmd82 : Nat := 0x82

def Cmd83 : Nat := 0x83

def Cmd84 : Nat := 0x84

def Cmd85 : Nat := 0x85

def Cmd86 : Nat := 0x86

def Cmd87 : Nat := 0x87

def Cmd88 : Nat := 0x88

def Cmd89 : Nat := 0x89

def Cmd8A : Nat := 0x8A

def Cmd8B : Nat := 0x8B

def Cmd8C : Nat := 0x8C

def Cmd8D : Nat := 0x8D

def Cmd8E : Nat := 0x8E

def Cmd8F : Nat := 0x8F

def Cmd7E : Nat := 0x7E

def Cmd74 : Nat := 0x74

def Cmd98 : Nat := 0x98

def Cmd99 : Nat := 0x99

def Cmd60 : Nat := 0x60

def Cmd63 : Nat := 0x63

def Cmd64 : Nat := 0x64

def Cmd66 : Nat := 0x66

def Cmd6A : Nat := 0x6A

def Cmd68 : Nat := 0x68

def Cmd6C : Nat := 0x6C

def Cmd6E : Nat := 0x6E

def CmdA9 : Nat := 0xA9

def CmdA8 : Nat := 0xA8

def CmdA7 : Nat := 0xA7

def CmdAD : Nat := 0xAD

def CmdAF : Nat := 0xAF

def CmdAC : Nat := 0xAC

def CmdA3 : Nat := 0xA3

def CmdCB : Nat := 0xCB

def CmdCD : Nat := 0xCD

def CmdC2 : Nat := 0xC2

def CmdC5 : Nat := 0xC5

def CmdC6 : Nat := 0xC6

def CmdC7 : Nat := 0xC7

def CmdC8 : Nat := 0xC8

def CmdF9 : Nat := 0xF9

def Cmd9B : Nat := 0x9B

def Cmd93 : Nat := 0x93

def Cmd70 : Nat := 0x70

def Cmd71 : Nat := 0x71

def Cmd91 : Nat := 0x91

end Instruction

/-- The `Orientation` enum of the source, with its discriminant values. -/
inductive Orientation where
  | Portrait
  | Landscape
  | PortraitSwapped
  | LandscapeSwapped
deriving DecidableEq, Repr

/-- The numeric discriminant of each `Orientation` variant (`as u8`). -/
def Orientation.val : Orientation → Nat
  | .Portrait => 0x00
  | .Landscape => 0x60
  | .PortraitSwapped => 0x80
  | .LandscapeSwapped => 0xA0

/-- The `Config` struct of the source (`width`, `height`, `dx`, `dy` are
`u16` in the source and modelled as `Nat`). -/
structure Config where
  rgb : Bool
  inverted : Bool
  orientation : Orientation
  height : Nat
  width : Nat
  dx : Nat
  dy : Nat
deriving Repr

/-- `Config::default()` from the source. -/
def Config.default : Config :=
  { rgb := false, inverted := false, orientation := .Landscape,
    height := 160, width := 60, dx := 0, dy := 0 }

/-- The `Error<BusE, PinE>` enum of the source. -/
inductive Error (BusE PinE : Type) where
  | Bus : BusE → Error BusE PinE
  | Pin : PinE → Error BusE PinE
deriving DecidableEq, Repr

/-- Externally visible events of a driver run: select/reset line levels,
bus writes (with the exact bytes), and timer delays. -/
inductive Ev where
  | dcLow
  | dcHigh
  | rstLow
  | rstHigh
  | write (bytes : List Nat)
  | delay (ms : Nat)
deriving DecidableEq, Repr

/-- Failure oracles: for each collaborator, the n-th operation on it either
succeeds (`none`) or fails with a concrete error value (`some e`). -/
structure Env (BusE PinE : Type) where
  busFail : Nat → Option BusE
  dcFail : Nat → Option PinE
  rstFail : Nat → Option PinE

/-- The environment in which no operation ever fails (an error-free run). -/
def noFail : Env Nat Nat :=
  { busFail := fun _ => none, dcFail := fun _ => none, rstFail := fun _ => none }

/-- Mutable driver state: operation counters (used to index the oracles),
the event trace so far, and the caller-supplied transfer buffer
(`self.buffer`). -/
structure St where
  bus : Nat
  dc : Nat
  rst : Nat
  trace : List Ev
  buf : List Nat
deriving DecidableEq, Repr

/-- A fresh driver state holding the given transfer buffer. -/
def St.fresh (buffer : List Nat) : St :=
  { bus := 0, dc := 0, rst := 0, trace := [], buf := buffer }

/-- A Rust panic site reached by the modelled code: an out-of-bounds buffer
index, an out-of-range buffer slice `buffer[..n]`, or an out-of-bounds read
of the caller's `data` slice. -/
inductive Fault where
  | bufIndex (i : Nat)
  | bufSlice (n : Nat)
  | dataIndex (i : Nat)
deriving DecidableEq, Repr

/-- Result of a driver operation: success, a returned `Error`, a Rust
panic (`fault`), or fuel exhaustion of the modelled loop (`timeout`). -/
inductive RRes (BusE PinE : Type) where
  | ok
  | err (e : Error BusE PinE)
  | fault (f : Fault)
  | timeout
deriving DecidableEq, Repr

/-- `self.bus.write(bytes)`: the event is recorded, the write counter is
advanced, and the oracle decides success. -/
def busWrite {BusE PinE : Type} (env : Env BusE PinE) (st : St) (bytes : List Nat) :
    St × Option BusE :=
  ({ st with bus := st.bus + 1, trace := st.trace ++ [Ev.write bytes] }, env.busFail st.bus)

/-- `self.dc.set_low()`. -/
def dcSetLow {BusE PinE : Type} (env : Env BusE PinE) (st : St) : St × Option PinE :=
  ({ st with dc := st.dc + 1, trace := st.trace ++ [Ev.dcLow] }, env.dcFail st.dc)

/-- `self.dc.set_high()`. -/
def dcSetHigh {BusE PinE : Type} (env : Env BusE PinE) (st : St) : St × Option PinE :=
  ({ st with dc := st.dc + 1, trace := st.trace ++ [Ev.dcHigh] }, env.dcFail st.dc)

/-- `self.rst.set_low()`. -/
def rstSetLow {BusE PinE : Type} (env : Env BusE PinE) (st : St) : St × Option PinE :=
  ({ st with rst := st.rst + 1, trace := st.trace ++ [Ev.rstLow] }, env.rstFail st.rst)

/-- `self.rst.set_high()`. -/
def rstSetHigh {BusE PinE : Type} (env : Env BusE PinE) (st : St) : St × Option PinE :=
  ({ st with rst := st.rst + 1, trace := st.trace ++ [Ev.rstHigh] }, env.rstFail st.rst)

/-- `TIMER::after_millis(ms)`. -/
def delayMs (st : St) (ms : Nat) : St :=
  { st with trace := st.trace ++ [Ev.delay ms] }

/-- `write_command` from the source: select line low, one opcode byte on the
bus, and — only when the command write succeeded and `params` is non-empty —
select line high and the parameter bytes as one bus transaction. -/
def write_command {BusE PinE : Type} (env : Env BusE PinE) (st : St)
    (instruction : Nat) (params : List Nat) : St × Option (Error BusE PinE) :=
  match dcSetLow env st with
  | (st, some e) => (st, some (Error.Pin e))
  | (st, none) =>
    match busWrite env st [instruction] with
    | (st, some e) => (st, some (Error.Bus e))
    | (st, none) =>
      if params = [] then (st, none)
      else
        match dcSetHigh env st with
        | (st, some e) => (st, some (Error.Pin e))
        | (st, none) =>
          match busWrite env st params with
          | (st, some e) => (st, some (Error.Bus e))
          | (st, none) => (st, none)

/-- `start_data_internal` from the source: just `self.dc.set_high()`. -/
def start_data_internal {BusE PinE : Type} (env : Env BusE PinE) (st : St) :
    St × Option PinE :=
  dcSetHigh env st

/-- `reset` from the source: RST low, 10 ms, RST high, 120 ms. -/
def reset {BusE PinE : Type} (env : Env BusE PinE) (st : St) :
    St × Option (Error BusE PinE) :=
  match rstSetLow env st with
  | (st, some e) => (st, some (Error.Pin e))
  | (st, none) =>
    let st := delayMs st 10
    match rstSetHigh env st with
    | (st, some e) => (st, some (Error.Pin e))
    | (st, none) => (delayMs st 120, none)

/-- Run a list of `(instruction, params)` pairs through `write_command`,
stopping at the first error — the shape of the straight-line `?`-chained
`write_command` calls in `init`. -/
def runCmds {BusE PinE : Type} (env : Env BusE PinE) :
    St → List (Nat × List Nat) → St × Option (Error BusE PinE)
  | st, [] => (st, none)
  | st, (i, p) :: rest =>
    match write_command env st i p with
    | (st, some e) => (st, some e)
    | (st, none) => runCmds env st rest

/-- The literal `init` register program from the source, in source order,
from `InterRegisterEnable1` up to and including `SleepOut`. -/
def initCmds (cfg : Config) : List (Nat × List Nat) :=
  [(Instruction.InterRegisterEnable1, []),
   (Instruction.InterRegisterEnable2, []),
   (Instruction.Cmd80, [0xFF]), (Instruction.Cmd81, [0xFF]),
   (Instruction.Cmd82, [0xFF]), (Instruction.Cmd83, [0xFF]),
   (Instruction.Cmd84, [0xFF]), (Instruction.Cmd85, [0xFF]),
   (Instruction.Cmd86, [0xFF]), (Instruction.Cmd87, [0xFF]),
   (Instruction.Cmd88, [0xFF]), (Instruction.Cmd89, [0xFF]),
   (Instruction.Cmd8A, [0xFF]), (Instruction.Cmd8B, [0xFF]),
   (Instruction.Cmd8C, [0xFF]), (Instruction.Cmd8D, [0xFF]),
   (Instruction.Cmd8E, [0xFF]), (Instruction.Cmd8F, [0xFF]),
   (Instruction.PixelFormatSet, [0x05]),
   (Instruction.Cmd7E, [0x7A]),
   (Instruction.Cmd74, [0x02, 0x0E, 0x00, 0x00, 0x28, 0x00, 0x00]),
   (Instruction.Cmd98, [0x3E]),
   (Instruction.Cmd99, [0x3E]),
   (Instruction.BlankingPorchControl, [0x0E, 0x0E]),
   (Instruction.Cmd60, [0x38, 0x09, 0x6D, 0x67]),
   (Instruction.Cmd63, [0x38, 0xAD, 0x6D, 0x67, 0x05]),
   (Instruction.Cmd64, [0x38, 0x0B, 0x70, 0xAB, 0x6D, 0x67]),
   (Instruction.Cmd66, [0x38, 0x0F, 0x70, 0xAF, 0x6D, 0x67]),
   (Instruction.Cmd6A, [0x00, 0x00]),
   (Instruction.Cmd68, [0x3B, 0x08, 0x04, 0x00, 0x04, 0x64, 0x67]),
   (Instruction.Cmd6C, [0x22, 0x02, 0x22, 0x02, 0x22, 0x22, 0x50]),
   (Instruction.Cmd6E,
    [0x00, 0x00, 0x00, 0x00, 0x07, 0x01, 0x13, 0x11, 0x0B, 0x09, 0x16, 0x15,
     0x1D, 0x1E, 0x00, 0x00, 0x00, 0x00, 0x1E, 0x1D, 0x15, 0x16, 0x0A, 0x0C,
     0x12, 0x14, 0x02, 0x08, 0x00, 0x00, 0x00, 0x00]),
   (Instruction.CmdA9, [0x1B]),
   (Instruction.CmdA8, [0x6B]),
   (Instruction.CmdA8, [0x6D]),
   (Instruction.CmdA7, [0x40]),
   (Instruction.CmdAD, [0x47]),
   (Instruction.CmdAF, [0x73]),
   (Instruction.CmdAF, [0x73]),
   (Instruction.CmdAC, [0x44]),
   (Instruction.CmdA3, [0x6C]),
   (Instruction.CmdCB, [0x00]),
   (Instruction.CmdCD, [0x22]),
   (Instruction.CmdC2, [0x10]),
   (Instruction.CmdC5, [0x00]),
   (Instruction.CmdC6, [0x0E]),
   (Instruction.CmdC7, [0x1F]),
   (Instruction.CmdC8, [0x0E]),
   (Instruction.DualSingleGateSelect, [0x00]),
   (Instruction.CmdF9, [0x20]),
   (Instruction.Cmd9B, [0x3B]),
   (Instruction.Cmd93, [0x33, 0x7F, 0x00]),
   (Instruction.Cmd70, [0x0E, 0x0F, 0x03, 0x0E, 0x0F, 0x03]),
   (Instruction.Cmd71, [0x0E, 0x16, 0x03]),
   (Instruction.Cmd91, [0x0E, 0x09]),
   (Instruction.PowerControl2, [0x2C]),
   (Instruction.PowerControl3, [0x1A]),
   (Instruction.SetGamma1, [0x51, 0x13, 0x0C, 0x06, 0x00, 0x2F]),
   (Instruction.SetGamma3, [0x51, 0x13, 0x0C, 0x06, 0x00, 0x33]),
   (Instruction.SetGamma2, [0x3C, 0x94, 0x4F, 0x33, 0x34, 0xCF]),
   (Instruction.SetGamma4, [0x4D, 0x94, 0x4F, 0x33, 0x34, 0xCF]),
   (Instruction.MemoryAccessControl, [cfg.orientation.val]),
   (Instruction.DisplayFunctionControl, [0x0A, 0x80, 0x27, 0x00]),
   (Instruction.SleepOut, [])]

/-- `init` from the source: hardware reset, the register program through
`SleepOut`, a 200 ms delay, then `DisplayOn`; the first error aborts. -/
def init {BusE PinE : Type} (env : Env BusE PinE) (cfg : Config) (st : St) :
    St × Option (Error BusE PinE) :=
  match reset env st with
  | (st, some e) => (st, some e)
  | (st, none) =>
    match runCmds env st (initCmds cfg) with
    | (st, some e) => (st, some e)
    | (st, none) =>
      let st := delayMs st 200
      write_command env st Instruction.DisplayOn []

/-- `set_address_window` from the source: offsets each coordinate by the
configured `dx`/`dy` (u16 arithmetic), writes `RowAddressSet` (0x2B) with
the big-endian start/end x bytes, then `ColumnAddressSet` (0x2A) with the
big-endian start/end y bytes; the first failing command aborts. -/
def set_address_window {BusE PinE : Type} (env : Env BusE PinE) (cfg : Config)
    (st : St) (sx sy ex ey : Nat) : St × Option (Error BusE PinE) :=
  let final_sx := u16 (sx + cfg.dx)
  let final_ex := u16 (ex + cfg.dx)
  let final_sy := u16 (sy + cfg.dy)
  let final_ey := u16 (ey + cfg.dy)
  match write_command env st Instruction.RowAddressSet
      [hi8 final_sx, u8 final_sx, hi8 final_ex, u8 final_ex] with
  | (st, some e) => (st, some e)
  | (st, none) =>
    write_command env st Instruction.ColumnAddressSet
      [hi8 final_sy, u8 final_sy, hi8 final_ey, u8 final_ey]

/-- The `for chunk in self.buffer.chunks_mut(2)` loop of `fill_color`:
fills the buffer with the repeated 2-byte pattern `[hi, lo]`.  When the
buffer length is odd the final chunk has length 1 and `chunk[1]` panics,
modelled by `none`. -/
def fillBufLoop (hi lo : Nat) : List Nat → Option (List Nat)
  | [] => some []
  | [_] => none
  | _ :: _ :: rest =>
    match fillBufLoop hi lo rest with
    | none => none
    | some r => some (hi :: lo :: r)

/-- The `while pixels_sent < total_pixels` data loop of `fill_color`, with
structural fuel (the loop always terminates; `fill_color` supplies enough
fuel).  Each iteration sends `min(remaining, MAX_DATA_LEN)` pixels as
`buffer[..bytes_to_send]`; slicing past the buffer length is a panic; the
first bus error breaks the loop and is returned as `Error::Bus`. -/
def fillLoopF {BusE PinE : Type} (env : Env BusE PinE) :
    Nat → St → Nat → Nat → St × RRes BusE PinE
  | 0, st, _, _ => (st, RRes.timeout)
  | fuel + 1, st, total_pixels, pixels_sent =>
    if pixels_sent < total_pixels then
      let remaining_pixels := total_pixels - pixels_sent
      let current_chunk_pixels := min remaining_pixels MAX_DATA_LEN
      let bytes_to_send := current_chunk_pixels * 2
      if bytes_to_send ≤ st.buf.length then
        match busWrite env st (st.buf.take bytes_to_send) with
        | (st, some e) => (st, RRes.err (Error.Bus e))
        | (st, none) => fillLoopF env fuel st total_pixels (pixels_sent + current_chunk_pixels)
      else (st, RRes.fault (Fault.bufSlice bytes_to_send))
    else (st, RRes.ok)

/-- The `fill_color` data loop with its (sufficient) fuel supplied. -/
def fillLoop {BusE PinE : Type} (env : Env BusE PinE) (st : St)
    (total_pixels pixels_sent : Nat) : St × RRes BusE PinE :=
  fillLoopF env (total_pixels - pixels_sent + 1) st total_pixels pixels_sent

/-- `fill_color` from the source: window over the whole screen, the
`MemoryWrite` command, select line high, buffer pre-filled with the 2-byte
big-endian color pattern, then the chunked data loop. -/
def fill_color {BusE PinE : Type} (env : Env BusE PinE) (cfg : Config)
    (st : St) (color : Nat) : St × RRes BusE PinE :=
  -- `width - 1` / `height - 1` are `u16` wrapping subtractions in the source
  match set_address_window env cfg st 0 0 (u16 (cfg.width + 65535)) (u16 (cfg.height + 65535)) with
  | (st, some e) => (st, RRes.err e)
  | (st, none) =>
    match write_command env st Instruction.MemoryWrite [] with
    | (st, some e) => (st, RRes.err e)
    | (st, none) =>
      match start_data_internal env st with
      | (st, some e) => (st, RRes.err (Error.Pin e))
      | (st, none) =>
        let high_byte := hi8 color
        let low_byte := u8 color
        match fillBufLoop high_byte low_byte st.buf with
        | none => (st, RRes.fault (Fault.bufIndex 1))
        | some b =>
          let st := { st with buf := b }
          let total_pixels := cfg.width * cfg.height
          fillLoop env st total_pixels 0

/-- The inner buffer-filling loop of `write_area`
(`while buffer_idx < self.buffer.len() && current_pixel_index < data.len()`),
with structural fuel (the caller supplies enough).  Reads
`data[current_pixel_index]`, writes the high byte at `buffer_idx` and the low
byte at `buffer_idx + 1` (a panic when that index is out of bounds), and
returns the filled buffer with the final `buffer_idx` and pixel index. -/
def waInnerF (data : List Nat) :
    Nat → List Nat → Nat → Nat → (List Nat × Nat × Nat) ⊕ Fault
  | 0, buffer, buffer_idx, current_pixel_index =>
    Sum.inl (buffer, buffer_idx, current_pixel_index)
  | fuel + 1, buffer, buffer_idx, current_pixel_index =>
    if buffer_idx < buffer.length ∧ current_pixel_index < data.length then
      match data.get? current_pixel_index with
      | none => Sum.inr (Fault.dataIndex current_pixel_index)
      | some color_val =>
        let buffer := buffer.set buffer_idx (hi8 color_val)
        if buffer_idx + 1 < buffer.length then
          let buffer := buffer.set (buffer_idx + 1) (u8 color_val)
          waInnerF data fuel buffer (buffer_idx + 2) (current_pixel_index + 1)
        else Sum.inr (Fault.bufIndex (buffer_idx + 1))
    else Sum.inl (buffer, buffer_idx, current_pixel_index)

/-- The inner loop with its (sufficient) fuel supplied: each iteration
consumes one pixel, so `data.length + 1` steps never hit the fuel bound. -/
def waInner (data : List Nat) (buffer : List Nat) (buffer_idx current_pixel_index : Nat) :
    (List Nat × Nat × Nat) ⊕ Fault :=
  waInnerF data (data.length + 1) buffer buffer_idx current_pixel_index

/-- Result of the `write_area` chunk loop: normal exit carrying the last
recorded bus error (the source variable `first_bus_error`), a panic, or
fuel exhaustion (the loop can genuinely run forever, see `buffer = []`). -/
inductive LoopRes (BusE : Type) where
  | done (first_bus_error : Option BusE)
  | fault (f : Fault)
  | timeout
deriving DecidableEq, Repr

/-- The outer chunk loop of `write_area`
(`while current_pixel_index < data.len()`): refill the buffer via the inner
loop, flush `buffer[..buffer_idx]` when `buffer_idx > 0`, record a failing
flush in `first_bus_error` (overwriting any earlier recorded error, as the
source does), and keep going.  Returns the final consumed pixel count. -/
def waLoop {BusE PinE : Type} (env : Env BusE PinE) (data : List Nat) :
    St → Nat → Option BusE → Nat → St × Nat × LoopRes BusE
  | st, current_pixel_index, first_bus_error, 0 =>
    (st, current_pixel_index, LoopRes.timeout)
  | st, current_pixel_index, first_bus_error, fuel + 1 =>
    if current_pixel_index < data.length then
      match waInner data st.buf 0 current_pixel_index with
      | Sum.inr f => (st, current_pixel_index, LoopRes.fault f)
      | Sum.inl (buffer, buffer_idx, current_pixel_index) =>
        let st := { st with buf := buffer }
        if 0 < buffer_idx then
          match busWrite env st (st.buf.take buffer_idx) with
          | (st, some e) => waLoop env data st current_pixel_index (some e) fuel
          | (st, none) => waLoop env data st current_pixel_index first_bus_error fuel
        else waLoop env data st current_pixel_index first_bus_error fuel
    else (st, current_pixel_index, LoopRes.done first_bus_error)

/-- The final `if let Some(bus_err) = first_bus_error { Err(Error::Bus(..)) }
else { Ok(()) }` conversion at the end of `write_area`, lifted over the
fault/timeout outcomes of the modelled loop. -/
def loopOut {BusE PinE : Type} : St × Nat × LoopRes BusE → St × Nat × RRes BusE PinE
  | (st, n, LoopRes.done (some e)) => (st, n, RRes.err (Error.Bus e))
  | (st, n, LoopRes.done none) => (st, n, RRes.ok)
  | (st, n, LoopRes.fault f) => (st, n, RRes.fault f)
  | (st, n, LoopRes.timeout) => (st, n, RRes.timeout)

/-- `write_area` from the source: window over the given rectangle, the
`MemoryWrite` command, select line high, then the chunk loop; a recorded
bus error surfaces as `Error::Bus` only after all chunks were attempted. -/
def write_area {BusE PinE : Type} (env : Env BusE PinE) (cfg : Config) (st : St)
    (x y width height : Nat) (data : List Nat) (fuel : Nat) :
    St × Nat × RRes BusE PinE :=
  -- `x + width - 1` / `y + height - 1` are `u16` wrapping arithmetic in the source
  match set_address_window env cfg st x y (u16 (x + width + 65535)) (u16 (y + height + 65535)) with
  | (st, some e) => (st, 0, RRes.err e)
  | (st, none) =>
    match write_command env st Instruction.MemoryWrite [] with
    | (st, some e) => (st, 0, RRes.err e)
    | (st, none) =>
      match start_data_internal env st with
      | (st, some e) => (st, 0, RRes.err (Error.Pin e))
      | (st, none) => loopOut (waLoop env data st 0 none fuel)

/-! Specification-side helper definitions used to state the claims. -/

/-- Whether an event is the select line going high. -/
def Ev.isDcHighB : Ev → Bool
  | Ev.dcHigh => true
  | _ => false

/-- The events strictly after the last select-line-high transition of a
trace: in a successful streaming run these are exactly the data-phase bus
writes. -/
def afterLastDcHigh (tr : List Ev) : List Ev :=
  (tr.reverse.takeWhile (fun e => ! e.isDcHighB)).reverse

/-- The byte length of a bus-write event (0 for other events). -/
def Ev.writeLen : Ev → Nat
  | Ev.write bytes => bytes.length
  | _ => 0

/-- Scan a trace for the command-phase write of opcode `code` and return the
parameter bytes written right after it (after the select-line-high
transition of the parameter phase). -/
def paramAfterCmd (code : Nat) : List Ev → Option (List Nat)
  | [] => none
  | Ev.write b :: rest =>
    if b = [code] then
      match rest with
      | Ev.dcHigh :: Ev.write p :: _ => some p
      | _ => none
    else paramAfterCmd code rest
  | _ :: rest => paramAfterCmd code rest

/-- The byte sizes of the data-phase bus writes `fill_color` issues for
`n` pixels: `n / MAX_DATA_LEN` full chunks of `2 * MAX_DATA_LEN` bytes and,
when `MAX_DATA_LEN` does not divide `n`, a final chunk of the remaining
`2 * (n % MAX_DATA_LEN)` bytes. -/
def chunkSizes (n : Nat) : List Nat :=
  List.replicate (n / MAX_DATA_LEN) (MAX_DATA_LEN * 2) ++
    (if n % MAX_DATA_LEN = 0 then [] else [n % MAX_DATA_LEN * 2])

/-- The event sequence of one successful `write_command`: select low, the
opcode byte, and — for non-empty `params` — select high and the params. -/
def cmdTrace (instruction : Nat) (params : List Nat) : List Ev :=
  Ev.dcLow :: Ev.write [instruction] ::
    (if params = [] then [] else [Ev.dcHigh, Ev.write params])

/-- The data-phase write events of a successful `fill_color` streaming loop
over `n` pixels with transfer buffer `buf`. -/
def chunkWrites (buf : List Nat) (n : Nat) : List Ev :=
  (chunkSizes n).map (fun k => Ev.write (buf.take k))

/-- Whether a run outcome is a Rust panic. -/
def RRes.isFault {BusE PinE : Type} : RRes BusE PinE → Bool
  | RRes.fault _ => true
  | _ => false

/-- The driver state after the (never-failing) prelude of `fill_color`:
address window over the whole screen, `MemoryWrite`, select line high. -/
def fillPrelSt (cfg : Config) (st : St) : St :=
  (start_data_internal noFail
    (write_command noFail
      (set_address_window noFail cfg st 0 0
        (u16 (cfg.width + 65535)) (u16 (cfg.height + 65535))).1
      Instruction.MemoryWrite []).1).1

/-- The driver state after the (never-failing) prelude of `write_area`. -/
def waPrelSt (cfg : Config) (st : St) (x y width height : Nat) : St :=
  (start_data_internal noFail
    (write_command noFail
      (set_address_window noFail cfg st x y
        (u16 (x + width + 65535)) (u16 (y + height + 65535))).1
      Instruction.MemoryWrite []).1).1

/-- An environment in which the two data-phase bus writes of a 2-chunk
`write_area` run (bus operations 5 and 6, after the 5 prelude writes) fail
with the distinct error values 10 and 20. -/
def envLastWins : Env Nat Nat :=
  { busFail := fun n => if n = 5 then some 10 else if n = 6 then some 20 else none,
    dcFail := fun _ => none, rstFail := fun _ => none }

/-- An environment in which the very first bus write fails with error 7. -/
def envFirstChunkFail : Env Nat Nat :=
  { busFail := fun n => if n = 0 then some 7 else none,
    dcFail := fun _ => none, rstFail := fun _ => none }

/-- Concrete 3-by-1 configuration used to witness the `fill_color` chunk
accounting. -/
def cfg31 : Config := { Config.default with width := 3, height := 1 }

/-- Concrete 2-by-1 configuration used to witness the buffer precondition. -/
def cfg21 : Config := { Config.default with width := 2, height := 1 }

/-- Concrete configuration with the physical offsets `dx = 5`, `dy = 3`. -/
def cfg53 : Config := { Config.default with dx := 5, dy := 3 }

/-! Helper lemmas. -/

theorem MAX_DATA_LEN_eq : MAX_DATA_LEN = 1152 := rfl

/-- A `write_command` in the never-failing environment succeeds and appends
exactly its command trace. -/
theorem write_command_noFail (st : St) (i : Nat) (p : List Nat) :
    write_command noFail st i p =
      ({ st with dc := st.dc + (if p = [] then 1 else 2),
                 bus := st.bus + (if p = [] then 1 else 2),
                 trace := st.trace ++ cmdTrace i p }, none) := by
  by_cases hp : p = [] <;>
    simp [write_command, dcSetLow, dcSetHigh, busWrite, noFail, cmdTrace, hp]

/-- On an even-length buffer the `fill_color` buffer-fill loop succeeds and
produces the repeated `[hi, lo]` pattern. -/
theorem fillBufLoop_even (hi lo : Nat) :
    ∀ l : List Nat, l.length % 2 = 0 →
      fillBufLoop hi lo l = some (List.flatten (List.replicate (l.length / 2) [hi, lo]))
  | [] => fun _ => by simp [fillBufLoop]
  | [a] => fun h => by simp at h
  | a :: b :: rest => fun h => by
    have hr : rest.length % 2 = 0 := by simp at h; omega
    have ih := fillBufLoop_even hi lo rest hr
    have h2 : (a :: b :: rest).length / 2 = rest.length / 2 + 1 := by simp; omega
    rw [h2]
    simp [fillBufLoop, ih, List.replicate_succ]

/-- On an odd-length buffer the `fill_color` buffer-fill loop panics
(`chunk[1]` on the final singleton chunk). -/
theorem fillBufLoop_odd (hi lo : Nat) :
    ∀ l : List Nat, l.length % 2 = 1 → fillBufLoop hi lo l = none
  | [] => fun h => by simp at h
  | [a] => fun _ => rfl
  | a :: b :: rest => fun h => by
    have hr : rest.length % 2 = 1 := by simp at h; omega
    simp [fillBufLoop, fillBufLoop_odd hi lo rest hr]

theorem flatten_replicate_pair_length (hi lo k : Nat) :
    (List.flatten (List.replicate k [hi, lo])).length = 2 * k := by
  induction k with
  | zero => simp
  | succ k ih => simp [List.replicate_succ, ih]; omega

theorem chunkSizes_zero : chunkSizes 0 = [] := rfl

/-- One step of the `fill_color` chunking: the first chunk carries
`min n MAX_DATA_LEN` pixels. -/
theorem chunkSizes_step (n : Nat) (h : 1 ≤ n) :
    chunkSizes n = min n MAX_DATA_LEN * 2 :: chunkSizes (n - min n MAX_DATA_LEN) := by
  have hM : MAX_DATA_LEN = 1152 := rfl
  rcases le_or_lt 1152 n with hn | hn
  · have hmin : min n MAX_DATA_LEN = MAX_DATA_LEN := by rw [hM]; omega
    rw [hmin]
    simp only [chunkSizes, hM]
    have hd : n / 1152 = (n - 1152) / 1152 + 1 := by omega
    have hm : n % 1152 = (n - 1152) % 1152 := by omega
    rw [hd, hm, List.replicate_succ]
    simp
  · have hmin : min n MAX_DATA_LEN = n := by rw [hM]; omega
    rw [hmin, Nat.sub_self, chunkSizes_zero]
    simp only [chunkSizes, hM]
    have hd : n / 1152 = 0 := by omega
    have hm : n % 1152 = n := by omega
    rw [hd, hm, if_neg (by omega : ¬ n = 0)]
    simp

/-- `fill_color` issues `ceil(n / MAX_DATA_LEN)` data chunks. -/
theorem chunkSizes_length (n : Nat) :
    (chunkSizes n).length = (n + (MAX_DATA_LEN - 1)) / MAX_DATA_LEN := by
  have hM : MAX_DATA_LEN = 1152 := rfl
  rw [chunkSizes, hM]
  by_cases h : n % 1152 = 0 <;> simp [h] <;> omega

/-- The chunk byte sizes total `2 * n` bytes for `n` pixels. -/
theorem chunkSizes_sum (n : Nat) : (chunkSizes n).sum = 2 * n := by
  have hM : MAX_DATA_LEN = 1152 := rfl
  rw [chunkSizes, hM]
  by_cases h : n % 1152 = 0 <;>
    simp [h, List.sum_replicate, smul_eq_mul] <;> omega

/-- Every chunk byte size is bounded by the first (largest) chunk. -/
theorem chunkSizes_mem_le (n k : Nat) (hk : k ∈ chunkSizes n) :
    k ≤ min n MAX_DATA_LEN * 2 := by
  have hM : MAX_DATA_LEN = 1152 := rfl
  rw [chunkSizes, hM] at hk
  rw [hM]
  rcases List.mem_append.1 hk with h | h
  · rcases List.eq_of_mem_replicate h with rfl
    have : 1152 ≤ n := by
      by_contra hc
      have : n / 1152 = 0 := by omega
      simp [this] at h
    omega
  · by_cases h0 : n % 1152 = 0
    · simp [h0] at h
    · simp [h0] at h
      omega

theorem takeWhile_all_append (p : Ev → Bool) :
    ∀ (l : List Ev) (y : Ev) (r : List Ev), (∀ a ∈ l, p a = true) → p y = false →
      (l ++ y :: r).takeWhile p = l
  | [], y, r, _, hy => by simp [List.takeWhile_cons, hy]
  | a :: t, y, r, hl, hy => by
    have ha : p a = true := hl a (by simp)
    simp only [List.cons_append, List.takeWhile_cons, ha, if_true]
    rw [takeWhile_all_append p t y r (fun b hb => hl b (by simp [hb])) hy]

/-- Dropping everything up to the last select-line-high transition isolates
the trailing block of non-`dcHigh` events. -/
theorem afterLastDcHigh_spec (xs ws : List Ev) (h : ∀ e ∈ ws, e.isDcHighB = false) :
    afterLastDcHigh (xs ++ Ev.dcHigh :: ws) = ws := by
  unfold afterLastDcHigh
  rw [List.reverse_append, List.reverse_cons, List.append_assoc, List.singleton_append]
  rw [takeWhile_all_append _ ws.reverse Ev.dcHigh xs.reverse
      (fun a ha => by simp [h a (List.mem_reverse.1 ha)]) rfl]
  exact List.reverse_reverse ws

theorem chunkWrites_no_dcHigh (buf : List Nat) (n : Nat) :
    ∀ e ∈ chunkWrites buf n, e.isDcHighB = false := by
  intro e he
  simp only [chunkWrites, List.mem_map] at he
  obtain ⟨k, -, rfl⟩ := he
  rfl

theorem noFail_bus (n : Nat) : noFail.busFail n = none := rfl

theorem noFail_dc (n : Nat) : noFail.dcFail n = none := rfl

/-- In the never-failing environment the `fill_color` data loop sends
exactly the chunk sequence and returns success, provided the buffer holds
the largest chunk. -/
theorem fillLoopF_noFail :
    ∀ (fuel total sent : Nat) (st : St), total - sent < fuel →
      min (total - sent) MAX_DATA_LEN * 2 ≤ st.buf.length →
      fillLoopF noFail fuel st total sent =
        ({ st with bus := st.bus + (chunkSizes (total - sent)).length,
                   trace := st.trace ++ chunkWrites st.buf (total - sent) }, RRes.ok)
  | 0, total, sent, st, hfuel, _ => absurd hfuel (Nat.not_lt_zero _)
  | fuel + 1, total, sent, st, hfuel, hbuf => by
    by_cases hlt : sent < total
    · have hstep := chunkSizes_step (total - sent) (by omega)
      have hrec := fillLoopF_noFail fuel total (sent + min (total - sent) MAX_DATA_LEN)
        { st with
          bus := st.bus + 1
          trace := st.trace ++
            [Ev.write (st.buf.take (min (total - sent) MAX_DATA_LEN * 2))] }
        (by have : 1 ≤ min (total - sent) MAX_DATA_LEN := by
              rw [MAX_DATA_LEN_eq]; omega
            omega)
        (by show min (total - (sent + min (total - sent) MAX_DATA_LEN)) MAX_DATA_LEN * 2 ≤
              st.buf.length
            refine le_trans (Nat.mul_le_mul_right 2 ?_) hbuf
            omega)
      have harg : total - (sent + min (total - sent) MAX_DATA_LEN) =
          total - sent - min (total - sent) MAX_DATA_LEN := by omega
      rw [harg] at hrec
      simp only [fillLoopF, if_pos hlt, if_pos hbuf, busWrite, noFail_bus]
      refine Eq.trans hrec ?_
      have hcw : chunkWrites st.buf (total - sent) =
          Ev.write (st.buf.take (min (total - sent) MAX_DATA_LEN * 2)) ::
            chunkWrites st.buf (total - sent - min (total - sent) MAX_DATA_LEN) := by
        simp [chunkWrites, hstep]
      have hlen2 : (chunkSizes (total - sent)).length =
          (chunkSizes (total - sent - min (total - sent) MAX_DATA_LEN)).length + 1 := by
        rw [hstep]; rfl
      rw [hcw]
      simp only [Prod.mk.injEq, St.mk.injEq, and_true, true_and, List.append_assoc,
        List.singleton_append]
      omega
    · have h0 : total - sent = 0 := by omega
      simp [fillLoopF, if_neg hlt, h0, chunkSizes_zero, chunkWrites]

/-- When the first chunk does not fit the buffer, the `fill_color` data loop
panics on its first slicing, before any bus write. -/
theorem fillLoopF_fault {BusE PinE : Type} (env : Env BusE PinE) (fuel total : Nat)
    (st : St) (h0 : 0 < total) (hb : st.buf.length < min total MAX_DATA_LEN * 2) :
    fillLoopF env (fuel + 1) st total 0 =
      (st, RRes.fault (Fault.bufSlice (min total MAX_DATA_LEN * 2))) := by
  simp only [fillLoopF, if_pos h0, Nat.sub_zero]
  rw [if_neg (by omega)]

/-- When the `fill_color` data loop returns an error, it is a `Bus` error,
the failing write is the last bus write issued (nothing is attempted after
it), and every bus write before it succeeded. -/
theorem fillLoopF_err {BusE PinE : Type} (env : Env BusE PinE) :
    ∀ (fuel total sent : Nat) (st st' : St) (r : Error BusE PinE),
      fillLoopF env fuel st total sent = (st', RRes.err r) →
      ∃ e, r = Error.Bus e ∧ st.bus < st'.bus ∧ env.busFail (st'.bus - 1) = some e ∧
        (∀ j, st.bus ≤ j → j + 1 < st'.bus → env.busFail j = none) ∧
        ∃ ws, st'.trace = st.trace ++ List.map Ev.write ws ∧ ws.length = st'.bus - st.bus
  | 0, total, sent, st, st', r, h => by simp [fillLoopF] at h
  | fuel + 1, total, sent, st, st', r, h => by
    by_cases hlt : sent < total
    · by_cases hbytes : min (total - sent) MAX_DATA_LEN * 2 ≤ st.buf.length
      · simp only [fillLoopF, if_pos hlt, if_pos hbytes, busWrite] at h
        cases hbus : env.busFail st.bus with
        | some e =>
          simp only [hbus, Prod.mk.injEq] at h
          obtain ⟨hst, hr⟩ := h
          cases hr
          refine ⟨e, rfl, ?_, ?_, ?_, ?_⟩
          · rw [← hst]; simp
          · rw [← hst]; simpa using hbus
          · intro j hj1 hj2
            rw [← hst] at hj2
            simp at hj2
            omega
          · exact ⟨[st.buf.take (min (total - sent) MAX_DATA_LEN * 2)],
              by rw [← hst]; simp, by rw [← hst]; simp⟩
        | none =>
          simp only [hbus] at h
          obtain ⟨e, he, hlt', hfail, hnone, ws, hws, hlen⟩ :=
            fillLoopF_err env fuel total (sent + min (total - sent) MAX_DATA_LEN)
              _ st' r h
          have hlt2 : st.bus + 1 < st'.bus := hlt'
          have hnone2 : ∀ j, st.bus + 1 ≤ j → j + 1 < st'.bus → env.busFail j = none :=
            hnone
          have hws2 : st'.trace =
              (st.trace ++ [Ev.write (st.buf.take (min (total - sent) MAX_DATA_LEN * 2))]) ++
                List.map Ev.write ws := hws
          have hlen3 : ws.length = st'.bus - (st.bus + 1) := hlen
          refine ⟨e, he, by omega, hfail, ?_, ?_⟩
          · intro j hj1 hj2
            rcases Nat.eq_or_lt_of_le hj1 with rfl | hj
            · exact hbus
            · exact hnone2 j (by omega) hj2
          · refine ⟨st.buf.take (min (total - sent) MAX_DATA_LEN * 2) :: ws, ?_, ?_⟩
            · rw [hws2]; simp
            · simp only [List.length_cons]
              omega
      · simp only [fillLoopF, if_pos hlt, if_neg hbytes, Prod.mk.injEq] at h
        simp at h
    · simp only [fillLoopF, if_neg hlt, Prod.mk.injEq] at h
      simp at h

/-- The `write_area` inner loop never reads `data` out of bounds: the read
is guarded by `current_pixel_index < data.len()`. -/
theorem waInnerF_no_dataFault (data : List Nat) :
    ∀ (fuel : Nat) (buffer : List Nat) (bi pi i : Nat),
      waInnerF data fuel buffer bi pi ≠ Sum.inr (Fault.dataIndex i)
  | 0, buffer, bi, pi, i => by simp [waInnerF]
  | fuel + 1, buffer, bi, pi, i => by
    simp only [waInnerF]
    split
    · next hcond =>
      rw [List.get?_eq_get hcond.2]
      split
      · next heq => simp at heq
      · next cv heq =>
        split
        · exact waInnerF_no_dataFault data fuel _ _ _ i
        · simp
    · simp

/-- On an even-length buffer the `write_area` inner loop never panics:
it returns the refilled buffer, the byte count written, and the new pixel
index, stopping only when the buffer is full or the data is exhausted. -/
theorem waInnerF_even (data : List Nat) :
    ∀ (fuel : Nat) (buffer : List Nat) (bi pi : Nat),
      buffer.length % 2 = 0 → bi % 2 = 0 → pi ≤ data.length → data.length - pi < fuel →
      ∃ buf' bi' pi',
        waInnerF data fuel buffer bi pi = Sum.inl (buf', bi', pi') ∧
        buf'.length = buffer.length ∧ pi ≤ pi' ∧ pi' ≤ data.length ∧
        bi' = bi + 2 * (pi' - pi) ∧
        (¬ bi' < buf'.length ∨ ¬ pi' < data.length)
  | 0, buffer, bi, pi, _, _, _, hfuel => absurd hfuel (Nat.not_lt_zero _)
  | fuel + 1, buffer, bi, pi, hbuf, hbi, hpi, hfuel => by
    simp only [waInnerF]
    split
    · next hcond =>
      obtain ⟨hblt, hplt⟩ := hcond
      rw [List.get?_eq_get hplt]
      split
      · next heq => simp at heq
      · next cv heq =>
        have hcv : cv = data.get ⟨pi, hplt⟩ := by
          simp at heq
          exact heq.symm
        subst hcv
        have hlen1 : (buffer.set bi (hi8 (data.get ⟨pi, hplt⟩))).length = buffer.length :=
          List.length_set ..
        rw [if_pos (by rw [hlen1]; omega)]
        obtain ⟨buf', bi', pi', heq2, hlen, hle, hle2, hbi', hexit⟩ :=
          waInnerF_even data fuel
            ((buffer.set bi (hi8 (data.get ⟨pi, hplt⟩))).set (bi + 1)
              (u8 (data.get ⟨pi, hplt⟩)))
            (bi + 2) (pi + 1) (by simp [hlen1]; omega) (by omega) (by omega) (by omega)
        refine ⟨buf', bi', pi', heq2, by simp at hlen ⊢; omega, by omega, hle2,
          by omega, hexit⟩
    · next hcond =>
      exact ⟨buffer, bi, pi, rfl, rfl, le_refl _, hpi, by omega,
        by rw [Decidable.not_and_iff_or_not] at hcond; exact hcond⟩

/-- On any buffer the `write_area` inner loop either panics or returns with
the buffer length preserved, making strict progress in both the buffer index
and the pixel index whenever it was entered with room in the buffer and data
left to consume. -/
theorem waInnerF_progress (data : List Nat) :
    ∀ (fuel : Nat) (buffer : List Nat) (bi pi : Nat),
      pi ≤ data.length → data.length - pi < fuel →
      (∃ f, waInnerF data fuel buffer bi pi = Sum.inr f) ∨
      (∃ buf' bi' pi', waInnerF data fuel buffer bi pi = Sum.inl (buf', bi', pi') ∧
        buf'.length = buffer.length ∧ bi ≤ bi' ∧ pi ≤ pi' ∧ pi' ≤ data.length ∧
        (bi < buffer.length → pi < data.length → bi < bi' ∧ pi < pi'))
  | 0, buffer, bi, pi, _, hfuel => absurd hfuel (Nat.not_lt_zero _)
  | fuel + 1, buffer, bi, pi, hpi, hfuel => by
    simp only [waInnerF]
    split
    · next hcond =>
      obtain ⟨hblt, hplt⟩ := hcond
      rw [List.get?_eq_get hplt]
      split
      · next heq => simp at heq
      · next cv heq =>
        have hcv : cv = data.get ⟨pi, hplt⟩ := by
          simp at heq
          exact heq.symm
        subst hcv
        by_cases hb1 : bi + 1 < (buffer.set bi (hi8 (data.get ⟨pi, hplt⟩))).length
        · rw [if_pos hb1]
          rcases waInnerF_progress data fuel
              ((buffer.set bi (hi8 (data.get ⟨pi, hplt⟩))).set (bi + 1)
                (u8 (data.get ⟨pi, hplt⟩)))
              (bi + 2) (pi + 1) (by omega) (by omega) with
            ⟨f, hf⟩ | ⟨buf', bi', pi', heq2, hlen, hbile, hpile, hpile2, -⟩
          · exact Or.inl ⟨f, hf⟩
          · refine Or.inr ⟨buf', bi', pi', heq2, ?_, by omega, by omega, hpile2,
              fun _ _ => ⟨by omega, by omega⟩⟩
            simp only [List.length_set] at hlen
            exact hlen
        · rw [if_neg hb1]
          exact Or.inl ⟨_, rfl⟩
    · next hcond =>
      refine Or.inr ⟨buffer, bi, pi, rfl, rfl, le_refl _, le_refl _, hpi, ?_⟩
      intro h1 h2
      exact absurd ⟨h1, h2⟩ hcond

/-- With a non-empty transfer buffer the `write_area` chunk loop cannot run
forever: within `data.length - pi + 1` iterations it has exited, normally
(`done`) or abnormally (`fault`), regardless of the buffer length's parity. -/
theorem waLoop_no_timeout {BusE PinE : Type} (env : Env BusE PinE) (data : List Nat) :
    ∀ (fuel : Nat) (st : St) (pi : Nat) (fbe : Option BusE),
      1 ≤ st.buf.length → pi ≤ data.length → data.length - pi < fuel →
      (waLoop env data st pi fbe fuel).2.2 ≠ LoopRes.timeout
  | 0, st, pi, fbe, _, _, hfuel => absurd hfuel (Nat.not_lt_zero _)
  | fuel + 1, st, pi, fbe, hbuf, hpi, hfuel => by
    by_cases hplt : pi < data.length
    · rcases waInnerF_progress data (data.length + 1) st.buf 0 pi hpi (by omega) with
        ⟨f, hf⟩ | ⟨buf', bi', pi', heq, hlen, -, hple, hple2, hprog⟩
      · simp only [waLoop, if_pos hplt, waInner, hf]
        simp
      · obtain ⟨hbi', hpi'⟩ := hprog (by omega) hplt
        cases hbus : env.busFail st.bus with
        | none =>
          have ih := waLoop_no_timeout env data fuel
            { st with
              buf := buf'
              bus := st.bus + 1
              trace := st.trace ++ [Ev.write (buf'.take bi')] }
            pi' fbe (by show 1 ≤ buf'.length; omega) hple2 (by omega)
          simp only [waLoop, if_pos hplt, waInner, heq,
            if_pos (by omega : 0 < bi'), busWrite, hbus]
          exact ih
        | some e =>
          have ih := waLoop_no_timeout env data fuel
            { st with
              buf := buf'
              bus := st.bus + 1
              trace := st.trace ++ [Ev.write (buf'.take bi')] }
            pi' (some e) (by show 1 ≤ buf'.length; omega) hple2 (by omega)
          simp only [waLoop, if_pos hplt, waInner, heq,
            if_pos (by omega : 0 < bi'), busWrite, hbus]
          exact ih
    · simp only [waLoop, if_neg hplt]
      simp

/-- On an even-length buffer of capacity at least one pixel, the
`write_area` chunk loop terminates with all `data.length` pixels consumed;
in an environment without bus failures the recorded error is unchanged. -/
theorem waLoop_term {BusE PinE : Type} (env : Env BusE PinE) (data : List Nat) :
    ∀ (fuel : Nat) (st : St) (pi : Nat) (fbe : Option BusE),
      st.buf.length % 2 = 0 → 2 ≤ st.buf.length → pi ≤ data.length →
      data.length - pi < fuel →
      ∃ st' fbe', waLoop env data st pi fbe fuel = (st', data.length, LoopRes.done fbe') ∧
        st'.buf.length = st.buf.length ∧
        ((∀ n, env.busFail n = none) → fbe' = fbe)
  | 0, st, pi, fbe, _, _, _, hfuel => absurd hfuel (Nat.not_lt_zero _)
  | fuel + 1, st, pi, fbe, hbuf, hbuf2, hpi, hfuel => by
    by_cases hplt : pi < data.length
    · obtain ⟨buf', bi', pi', heq, hlen, hle, hle2, hbi', hexit⟩ :=
        waInnerF_even data (data.length + 1) st.buf 0 pi hbuf (by omega) hpi (by omega)
      have hprog : pi < pi' := by
        rcases hexit with hex | hex <;> omega
      have hbipos : 0 < bi' := by omega
      cases hbus : env.busFail st.bus with
      | none =>
        obtain ⟨st', fbe', heq', hlen', himpl⟩ :=
          waLoop_term env data fuel
            { st with
              buf := buf'
              bus := st.bus + 1
              trace := st.trace ++ [Ev.write (buf'.take bi')] }
            pi' fbe (by show buf'.length % 2 = 0; omega)
            (by show 2 ≤ buf'.length; omega) hle2 (by omega)
        refine ⟨st', fbe', ?_,
          by have h2 : st'.buf.length = buf'.length := hlen'; omega, himpl⟩
        simp only [waLoop, if_pos hplt, waInner, heq, if_pos hbipos, busWrite, hbus]
        exact heq'
      | some e =>
        obtain ⟨st', fbe', heq', hlen', himpl⟩ :=
          waLoop_term env data fuel
            { st with
              buf := buf'
              bus := st.bus + 1
              trace := st.trace ++ [Ev.write (buf'.take bi')] }
            pi' (some e) (by show buf'.length % 2 = 0; omega)
            (by show 2 ≤ buf'.length; omega) hle2 (by omega)
        refine ⟨st', fbe', ?_,
          by have h2 : st'.buf.length = buf'.length := hlen'; omega, ?_⟩
        · simp only [waLoop, if_pos hplt, waInner, heq, if_pos hbipos, busWrite, hbus]
          exact heq'
        · intro hN
          rw [hN st.bus] at hbus
          exact absurd hbus (by simp)
    · have hpe : pi = data.length := by omega
      subst hpe
      refine ⟨st, fbe, ?_, rfl, fun _ => rfl⟩
      simp only [waLoop, if_neg hplt]

/-- With an empty transfer buffer and unconsumed data, the `write_area`
chunk loop makes no progress: it spins forever consuming no pixel (every
fuel bound is exhausted with the state unchanged). -/
theorem waLoop_zeroBuf {BusE PinE : Type} (env : Env BusE PinE) (data : List Nat) :
    ∀ (fuel : Nat) (st : St) (pi : Nat) (fbe : Option BusE),
      st.buf = [] → pi < data.length →
      waLoop env data st pi fbe fuel = (st, pi, LoopRes.timeout)
  | 0, st, pi, fbe, _, _ => rfl
  | fuel + 1, st, pi, fbe, hb, hpi => by
    have hinner : waInner data st.buf 0 pi = Sum.inl (st.buf, 0, pi) := by
      rw [hb]
      simp [waInner, waInnerF, hpi]
    simp only [waLoop, if_pos hpi, hinner]
    have hid : ({ st with buf := st.buf } : St) = st := rfl
    rw [hid]
    simp only [lt_irrefl, if_neg (by omega : ¬ (0 : Nat) < 0)]
    exact waLoop_zeroBuf env data fuel st pi fbe hb hpi

/-- No branch of `write_command` ever touches the transfer buffer. -/
theorem write_command_buf {BusE PinE : Type} (env : Env BusE PinE) (st : St)
    (i : Nat) (p : List Nat) : (write_command env st i p).1.buf = st.buf := by
  unfold write_command dcSetLow dcSetHigh busWrite
  repeat' split
  all_goals simp only [Prod.mk.injEq] at *
  all_goals casesm* _ ∧ _
  all_goals subst_vars
  all_goals rfl

/-- `set_address_window` never touches the transfer buffer. -/
theorem set_address_window_buf {BusE PinE : Type} (env : Env BusE PinE)
    (cfg : Config) (st : St) (sx sy ex ey : Nat) :
    (set_address_window env cfg st sx sy ex ey).1.buf = st.buf := by
  simp only [set_address_window]
  split
  · next st1 e heq =>
    have h1 := congrArg Prod.fst heq
    simp only [] at h1
    rw [← h1]
    exact write_command_buf ..
  · next st1 heq =>
    have h1 := congrArg Prod.fst heq
    simp only [] at h1
    rw [write_command_buf, ← h1]
    exact write_command_buf ..

/-- The `fill_color` prelude leaves the transfer buffer unchanged. -/
theorem fillPrelSt_buf (cfg : Config) (st : St) : (fillPrelSt cfg st).buf = st.buf := by
  have h : (fillPrelSt cfg st).buf =
      ((write_command noFail
        (set_address_window noFail cfg st 0 0
          (u16 (cfg.width + 65535)) (u16 (cfg.height + 65535))).1
        Instruction.MemoryWrite []).1).buf := rfl
  rw [h, write_command_buf, set_address_window_buf]

/-- The `write_area` prelude leaves the transfer buffer unchanged. -/
theorem waPrelSt_buf (cfg : Config) (st : St) (x y width height : Nat) :
    (waPrelSt cfg st x y width height).buf = st.buf := by
  have h : (waPrelSt cfg st x y width height).buf =
      ((write_command noFail
        (set_address_window noFail cfg st x y
          (u16 (x + width + 65535)) (u16 (y + height + 65535))).1
        Instruction.MemoryWrite []).1).buf := rfl
  rw [h, write_command_buf, set_address_window_buf]

/-- The `fill_color` prelude trace ends with the select-line-high transition
that starts the data phase. -/
theorem fillPrelSt_trace (cfg : Config) (st : St) :
    ∃ xs, (fillPrelSt cfg st).trace = xs ++ [Ev.dcHigh] :=
  ⟨_, rfl⟩

/-- `fill_color` in the never-failing environment runs its prelude and then
fills the buffer and streams it. -/
theorem fill_color_tail (cfg : Config) (st : St) (color : Nat) :
    fill_color noFail cfg st color =
      (match fillBufLoop (hi8 color) (u8 color) (fillPrelSt cfg st).buf with
       | none => (fillPrelSt cfg st, RRes.fault (Fault.bufIndex 1))
       | some b => fillLoop noFail { fillPrelSt cfg st with buf := b }
           (cfg.width * cfg.height) 0) := rfl

/-- `write_area` in the never-failing environment runs its prelude and then
enters the chunk loop. -/
theorem write_area_tail (cfg : Config) (st : St) (x y width height : Nat)
    (data : List Nat) (fuel : Nat) :
    write_area noFail cfg st x y width height data fuel =
      loopOut (waLoop noFail data (waPrelSt cfg st x y width height) 0 none fuel) := rfl

/-- In the never-failing environment the `write_area` chunk loop finishes
with all pixels consumed and the recorded error unchanged. -/
theorem waLoop_noFail_done (data : List Nat) (st : St) (fbe : Option Nat)
    (h1 : st.buf.length % 2 = 0) (h2 : 2 ≤ st.buf.length) :
    ∃ st', waLoop noFail data st 0 fbe (data.length + 1) =
      (st', data.length, LoopRes.done fbe) := by
  obtain ⟨st', fbe', heq, -, himpl⟩ :=
    waLoop_term noFail data (data.length + 1) st 0 fbe h1 h2 (by omega) (by omega)
  rw [himpl (fun n => rfl)] at heq
  exact ⟨st', heq⟩

/-- With a transfer buffer of length 1 and unconsumed data, the first
iteration of the `write_area` chunk loop panics writing `buffer[1]`. -/
theorem waLoop_oneBuf {BusE PinE : Type} (env : Env BusE PinE) (data : List Nat)
    (fuel : Nat) (st : St) (pi : Nat) (fbe : Option BusE)
    (hb : st.buf.length = 1) (hpi : pi < data.length) :
    waLoop env data st pi fbe (fuel + 1) = (st, pi, LoopRes.fault (Fault.bufIndex 1)) := by
  have hinner : waInner data st.buf 0 pi = Sum.inr (Fault.bufIndex 1) := by
    unfold waInner
    simp only [waInnerF]
    rw [if_pos ⟨by omega, hpi⟩, List.get?_eq_get hpi]
    split
    · next heq => simp at heq
    · next cv heq =>
      rw [if_neg (by rw [List.length_set, hb]; omega)]
  simp only [waLoop, if_pos hpi, hinner]

/-- In the never-failing environment a `fill_color` run over an even buffer
that holds the largest chunk succeeds, its trace being the prelude trace
followed by the data chunks. -/
theorem fill_color_noFail_spec (cfg : Config) (st : St) (color : Nat)
    (heven : st.buf.length % 2 = 0)
    (hcap : min (cfg.width * cfg.height) MAX_DATA_LEN * 2 ≤ st.buf.length) :
    ∃ st', fill_color noFail cfg st color = (st', RRes.ok) ∧
      st'.trace = (fillPrelSt cfg st).trace ++
        chunkWrites (List.flatten (List.replicate (st.buf.length / 2) [hi8 color, u8 color]))
          (cfg.width * cfg.height) := by
  have hbl := fillBufLoop_even (hi8 color) (u8 color) st.buf heven
  have h1 : fill_color noFail cfg st color =
      fillLoop noFail
        { fillPrelSt cfg st with
          buf := List.flatten (List.replicate (st.buf.length / 2) [hi8 color, u8 color]) }
        (cfg.width * cfg.height) 0 := by
    rw [fill_color_tail, fillPrelSt_buf, hbl]
  have hpatlen :
      (List.flatten (List.replicate (st.buf.length / 2) [hi8 color, u8 color])).length =
        st.buf.length := by
    rw [flatten_replicate_pair_length]
    omega
  have h2 := fillLoopF_noFail (cfg.width * cfg.height + 1) (cfg.width * cfg.height) 0
    { fillPrelSt cfg st with
      buf := List.flatten (List.replicate (st.buf.length / 2) [hi8 color, u8 color]) }
    (by omega)
    (by show min (cfg.width * cfg.height - 0) MAX_DATA_LEN * 2 ≤
          (List.flatten (List.replicate (st.buf.length / 2) [hi8 color, u8 color])).length
        rw [hpatlen]
        simpa using hcap)
  rw [h1]
  simp only [fillLoop, Nat.sub_zero]
  rw [h2]
  exact ⟨_, rfl, rfl⟩

/-! The claims. -/

/-- C1: the claim says the result of `write_area` wraps the error of the
FIRST failing data-phase bus write.  The code records each failure by plain
assignment into `first_bus_error`, so a later failure overwrites an earlier
one and the result carries the LAST error.  Concretely: a 2-pixel
`write_area` through a 2-byte buffer issues bus writes 5 and 6 for data;
`envLastWins` fails them with errors 10 and 20; both are still attempted
(7 bus writes in total), and the returned error is `Bus 20` — the second
chunk's error — not `Bus 10`. -/
theorem C1_write_area_returns_last_error :
    (write_area envLastWins Config.default (St.fresh [0, 0]) 0 0 2 1 [1, 2] 3).2.2 =
      RRes.err (Error.Bus 20) ∧
    (write_area envLastWins Config.default (St.fresh [0, 0]) 0 0 2 1 [1, 2] 3).1.bus = 7 ∧
    envLastWins.busFail 5 = some 10 ∧ envLastWins.busFail 6 = some 20 ∧
    RRes.err (Error.Bus 20) ≠ (RRes.err (Error.Bus 10) : RRes Nat Nat) := by
  decide

/-- C3: `write_command` sets the select line low, writes the one opcode
byte, and — only when the command write succeeded and `params` is
non-empty — sets the select line high and writes the params in one bus
transaction; the first failing sub-step aborts with its error and no later
sub-step is attempted (a failing command-phase bus write yields `Error::Bus`
and skips the parameter phase entirely; empty `params` mean exactly one bus
write and no select-line-high transition). -/
theorem C3_write_command_protocol {BusE PinE : Type} (env : Env BusE PinE)
    (st : St) (instruction : Nat) (params : List Nat) :
    (∀ e, env.dcFail st.dc = some e →
      write_command env st instruction params =
        ({ st with dc := st.dc + 1, trace := st.trace ++ [Ev.dcLow] }, some (Error.Pin e))) ∧
    (∀ e, env.dcFail st.dc = none → env.busFail st.bus = some e →
      write_command env st instruction params =
        ({ st with dc := st.dc + 1, bus := st.bus + 1, trace := st.trace ++ [Ev.dcLow, Ev.write [instruction]] }, some (Error.Bus e))) ∧
    (params = [] → env.dcFail st.dc = none → env.busFail st.bus = none →
      write_command env st instruction params =
        ({ st with dc := st.dc + 1, bus := st.bus + 1, trace := st.trace ++ [Ev.dcLow, Ev.write [instruction]] }, none)) ∧
    (∀ e, params ≠ [] → env.dcFail st.dc = none → env.busFail st.bus = none →
      env.dcFail (st.dc + 1) = some e →
      write_command env st instruction params =
        ({ st with dc := st.dc + 2, bus := st.bus + 1, trace := st.trace ++ [Ev.dcLow, Ev.write [instruction], Ev.dcHigh] }, some (Error.Pin e))) ∧
    (∀ e, params ≠ [] → env.dcFail st.dc = none → env.busFail st.bus = none →
      env.dcFail (st.dc + 1) = none → env.busFail (st.bus + 1) = some e →
      write_command env st instruction params =
        ({ st with dc := st.dc + 2, bus := st.bus + 2, trace := st.trace ++ [Ev.dcLow, Ev.write [instruction], Ev.dcHigh, Ev.write params] }, some (Error.Bus e))) ∧
    (params ≠ [] → env.dcFail st.dc = none → env.busFail st.bus = none →
      env.dcFail (st.dc + 1) = none → env.busFail (st.bus + 1) = none →
      write_command env st instruction params =
        ({ st with dc := st.dc + 2, bus := st.bus + 2, trace := st.trace ++ [Ev.dcLow, Ev.write [instruction], Ev.dcHigh, Ev.write params] }, none)) := by
  refine ⟨?_, ?_, ?_, ?_, ?_, ?_⟩
  · intro e h
    simp [write_command, dcSetLow, dcSetHigh, busWrite, h]
  · intro e h1 h2
    simp [write_command, dcSetLow, dcSetHigh, busWrite, h1, h2]
  · intro hp h1 h2
    simp [write_command, dcSetLow, dcSetHigh, busWrite, hp, h1, h2]
  · intro e hp h1 h2 h3
    simp [write_command, dcSetLow, dcSetHigh, busWrite, hp, h1, h2, h3,
      List.append_assoc]
  · intro e hp h1 h2 h3 h4
    simp [write_command, dcSetLow, dcSetHigh, busWrite, hp, h1, h2, h3, h4,
      List.append_assoc]
  · intro hp h1 h2 h3 h4
    simp [write_command, dcSetLow, dcSetHigh, busWrite, hp, h1, h2, h3, h4,
      List.append_assoc]

/-- Witness for C3: a fully successful `write_command` with one parameter
byte performs select-low, opcode write, select-high, parameter write. -/
theorem C3_witness :
    write_command noFail (St.fresh []) 0x11 [0xAB] =
      ({ bus := 2, dc := 2, rst := 0,
         trace := [Ev.dcLow, Ev.write [0x11], Ev.dcHigh, Ev.write [0xAB]],
         buf := [] }, none) :=
  (C3_write_command_protocol noFail (St.fresh []) 0x11 [0xAB]).2.2.2.2.2
    (by decide) rfl rfl rfl rfl

/-- C4: when the `fill_color` data loop ends in an error, the error is a
`Bus` error coming from the last bus write issued: every earlier data write
succeeded and nothing is attempted after the failing one (a failure on the
n-th chunk means exactly n data writes). -/
theorem C4_fill_color_stops_at_first_bus_error {BusE PinE : Type}
    (env : Env BusE PinE) (st st' : St) (total : Nat) (r : Error BusE PinE)
    (h : fillLoop env st total 0 = (st', RRes.err r)) :
    ∃ e, r = Error.Bus e ∧ st.bus < st'.bus ∧ env.busFail (st'.bus - 1) = some e ∧
      (∀ j, st.bus ≤ j → j + 1 < st'.bus → env.busFail j = none) ∧
      ∃ ws, st'.trace = st.trace ++ List.map Ev.write ws ∧ ws.length = st'.bus - st.bus :=
  fillLoopF_err env (total - 0 + 1) total 0 st st' r h

/-- Witness for C4: a first-chunk bus failure (error 7) in a 3-pixel fill. -/
theorem C4_witness :
    ∃ e, (Error.Bus 7 : Error Nat Nat) = Error.Bus e ∧
      (St.fresh (List.replicate 6 9)).bus <
        (fillLoop envFirstChunkFail (St.fresh (List.replicate 6 9)) 3 0).1.bus ∧
      envFirstChunkFail.busFail
        ((fillLoop envFirstChunkFail (St.fresh (List.replicate 6 9)) 3 0).1.bus - 1) = some e ∧
      (∀ j, (St.fresh (List.replicate 6 9)).bus ≤ j →
        j + 1 < (fillLoop envFirstChunkFail (St.fresh (List.replicate 6 9)) 3 0).1.bus →
        envFirstChunkFail.busFail j = none) ∧
      ∃ ws, (fillLoop envFirstChunkFail (St.fresh (List.replicate 6 9)) 3 0).1.trace =
          (St.fresh (List.replicate 6 9)).trace ++ List.map Ev.write ws ∧
        ws.length = (fillLoop envFirstChunkFail (St.fresh (List.replicate 6 9)) 3 0).1.bus -
          (St.fresh (List.replicate 6 9)).bus :=
  C4_fill_color_stops_at_first_bus_error envFirstChunkFail
    (St.fresh (List.replicate 6 9)) _ 3 (Error.Bus 7) (by decide)

/-- C6: the `write_area` chunk loop never reads the caller's `data` slice
out of bounds (first conjunct), and with an even transfer buffer of at
least one pixel it terminates having consumed exactly `data.len()` pixels,
returning success in a failure-free environment (second conjunct). -/
theorem C6_write_area_consumes_exactly_data :
    (∀ (data : List Nat) (fuel : Nat) (buffer : List Nat) (bi pi i : Nat),
      waInnerF data fuel buffer bi pi ≠ Sum.inr (Fault.dataIndex i)) ∧
    (∀ (cfg : Config) (st : St) (x y width height : Nat) (data : List Nat),
      st.buf.length % 2 = 0 → 2 ≤ st.buf.length →
      ∃ st', write_area noFail cfg st x y width height data (data.length + 1) =
        (st', data.length, RRes.ok)) := by
  refine ⟨fun data fuel buffer bi pi i => waInnerF_no_dataFault data fuel buffer bi pi i, ?_⟩
  intro cfg st x y width height data h1 h2
  rw [write_area_tail]
  obtain ⟨st', heq⟩ := waLoop_noFail_done data (waPrelSt cfg st x y width height) none
    (by rw [waPrelSt_buf]; exact h1) (by rw [waPrelSt_buf]; exact h2)
  rw [heq]
  exact ⟨st', rfl⟩

/-- Witness for C6: a 2-pixel `write_area` through a one-pixel buffer
terminates, consuming both pixels. -/
theorem C6_witness :
    ∃ st', write_area noFail Config.default (St.fresh [0, 0]) 0 0 2 1 [1, 2] 3 =
      (st', 2, RRes.ok) :=
  C6_write_area_consumes_exactly_data.2 Config.default (St.fresh [0, 0]) 0 0 2 1 [1, 2]
    (by decide) (by decide)

/-- C7: for each of the four orientations, an error-free `init` run writes
the memory-access-control command (0x36) with the single parameter byte
0x00, 0x60, 0x80 and 0xA0 respectively. -/
theorem C7_init_madctl_orientation :
    ((init noFail { Config.default with orientation := Orientation.Portrait } (St.fresh [])).2 = none ∧
      paramAfterCmd Instruction.MemoryAccessControl
        (init noFail { Config.default with orientation := Orientation.Portrait } (St.fresh [])).1.trace = some [0x00]) ∧
    ((init noFail { Config.default with orientation := Orientation.Landscape } (St.fresh [])).2 = none ∧
      paramAfterCmd Instruction.MemoryAccessControl
        (init noFail { Config.default with orientation := Orientation.Landscape } (St.fresh [])).1.trace = some [0x60]) ∧
    ((init noFail { Config.default with orientation := Orientation.PortraitSwapped } (St.fresh [])).2 = none ∧
      paramAfterCmd Instruction.MemoryAccessControl
        (init noFail { Config.default with orientation := Orientation.PortraitSwapped } (St.fresh [])).1.trace = some [0x80]) ∧
    ((init noFail { Config.default with orientation := Orientation.LandscapeSwapped } (St.fresh [])).2 = none ∧
      paramAfterCmd Instruction.MemoryAccessControl
        (init noFail { Config.default with orientation := Orientation.LandscapeSwapped } (St.fresh [])).1.trace = some [0xA0]) := by
  set_option maxRecDepth 40000 in decide

/-- C10: the claim groups buffer lengths 0 and 1 together as "the outer loop
never exits".  With a length-1 buffer and non-empty data the loop does exit,
abnormally, on its very first iteration: writing the low byte at buffer
index 1 is out of bounds (a panic), with zero pixels consumed — it does not
run forever.  (With a length-0 buffer it does run forever; see the amended
theorem.) -/
theorem C10_counterexample :
    waLoop noFail [5] (St.fresh [9]) 0 none 1 =
      (St.fresh [9], 0, LoopRes.fault (Fault.bufIndex 1)) ∧
    waLoop noFail [5] (St.fresh [9]) 0 none 100 =
      (St.fresh [9], 0, LoopRes.fault (Fault.bufIndex 1)) := by
  decide

/-- C10 (amended): the `write_area` chunk loop runs forever, consuming no
pixel, exactly when the transfer buffer is empty and data remains:
(a) with an empty buffer and unconsumed data it spins forever leaving the
state untouched; (b) with a length-1 buffer and unconsumed data it exits
abnormally on its first iteration with an out-of-bounds write at buffer
index 1; (c) with an even buffer of at least one pixel it terminates
normally with all data consumed; (d) with no data left it exits at once;
and (e) with ANY non-empty buffer — odd lengths included — it has exited,
normally or abnormally, within `data.length - pi + 1` iterations, so only
the empty buffer of (a) loops forever. -/
theorem C10_write_area_loop_termination {BusE PinE : Type} (env : Env BusE PinE)
    (data : List Nat) (st : St) (pi : Nat) (fbe : Option BusE) :
    (st.buf.length = 0 → pi < data.length →
      ∀ fuel, waLoop env data st pi fbe fuel = (st, pi, LoopRes.timeout)) ∧
    (st.buf.length = 1 → pi < data.length →
      ∀ fuel, waLoop env data st pi fbe (fuel + 1) = (st, pi, LoopRes.fault (Fault.bufIndex 1))) ∧
    (st.buf.length % 2 = 0 → 2 ≤ st.buf.length → pi ≤ data.length →
      ∃ st' fbe', waLoop env data st pi fbe (data.length - pi + 1) =
        (st', data.length, LoopRes.done fbe')) ∧
    (data = [] → ∀ fuel, waLoop env data st pi fbe (fuel + 1) = (st, pi, LoopRes.done fbe)) ∧
    (1 ≤ st.buf.length → pi ≤ data.length →
      (waLoop env data st pi fbe (data.length - pi + 1)).2.2 ≠ LoopRes.timeout) := by
  refine ⟨?_, ?_, ?_, ?_, ?_⟩
  · intro h0 hpi fuel
    exact waLoop_zeroBuf env data fuel st pi fbe (List.length_eq_zero.mp h0) hpi
  · intro h1 hpi fuel
    exact waLoop_oneBuf env data fuel st pi fbe h1 hpi
  · intro h1 h2 hpi
    obtain ⟨st', fbe', heq, -, -⟩ :=
      waLoop_term env data (data.length - pi + 1) st pi fbe h1 h2 hpi (by omega)
    exact ⟨st', fbe', heq⟩
  · intro hd fuel
    subst hd
    simp [waLoop]
  · intro h1 hpi
    exact waLoop_no_timeout env data (data.length - pi + 1) st pi fbe h1 hpi (by omega)

/-- Witness for C10: a length-1 buffer with two pixels of data panics at
buffer index 1 on the first iteration. -/
theorem C10_witness :
    waLoop noFail [3, 4] (St.fresh [9]) 0 none 5 =
      (St.fresh [9], 0, LoopRes.fault (Fault.bufIndex 1)) :=
  (C10_write_area_loop_termination noFail [3, 4] (St.fresh [9]) 0 none).2.1
    rfl (by decide) 4

/-- C5: with all offset sums in 16-bit range, `set_address_window` first
issues `RowAddressSet` with the big-endian bytes of `sx + dx` and `ex + dx`;
if that command fails, its error is returned and the column command is not
attempted; otherwise `ColumnAddressSet` follows with the big-endian bytes of
`sy + dy` and `ey + dy`, and its result is the operation's result. -/
theorem C5_set_address_window_encoding {BusE PinE : Type} (env : Env BusE PinE)
    (cfg : Config) (st : St) (sx sy ex ey : Nat)
    (hsx : sx + cfg.dx < 65536) (hex : ex + cfg.dx < 65536)
    (hsy : sy + cfg.dy < 65536) (hey : ey + cfg.dy < 65536) :
    (∀ st1 e, write_command env st Instruction.RowAddressSet
        [(sx + cfg.dx) / 256, (sx + cfg.dx) % 256, (ex + cfg.dx) / 256, (ex + cfg.dx) % 256] =
          (st1, some e) →
      set_address_window env cfg st sx sy ex ey = (st1, some e)) ∧
    (∀ st1, write_command env st Instruction.RowAddressSet
        [(sx + cfg.dx) / 256, (sx + cfg.dx) % 256, (ex + cfg.dx) / 256, (ex + cfg.dx) % 256] =
          (st1, none) →
      set_address_window env cfg st sx sy ex ey =
        write_command env st1 Instruction.ColumnAddressSet
          [(sy + cfg.dy) / 256, (sy + cfg.dy) % 256, (ey + cfg.dy) / 256, (ey + cfg.dy) % 256]) := by
  have e1 : u16 (sx + cfg.dx) = sx + cfg.dx := Nat.mod_eq_of_lt hsx
  have e2 : u16 (ex + cfg.dx) = ex + cfg.dx := Nat.mod_eq_of_lt hex
  have e3 : u16 (sy + cfg.dy) = sy + cfg.dy := Nat.mod_eq_of_lt hsy
  have e4 : u16 (ey + cfg.dy) = ey + cfg.dy := Nat.mod_eq_of_lt hey
  have f1 : hi8 (sx + cfg.dx) = (sx + cfg.dx) / 256 := Nat.mod_eq_of_lt (by omega)
  have f2 : hi8 (ex + cfg.dx) = (ex + cfg.dx) / 256 := Nat.mod_eq_of_lt (by omega)
  have f3 : hi8 (sy + cfg.dy) = (sy + cfg.dy) / 256 := Nat.mod_eq_of_lt (by omega)
  have f4 : hi8 (ey + cfg.dy) = (ey + cfg.dy) / 256 := Nat.mod_eq_of_lt (by omega)
  constructor
  · intro st1 e h
    simp only [set_address_window, u8, e1, e2, e3, e4, f1, f2, f3, f4, h]
  · intro st1 h
    simp only [set_address_window, u8, e1, e2, e3, e4, f1, f2, f3, f4, h]

/-- Witness for C5: with `dx = 5`, `dy = 3`, the window (1,2)–(3,4) writes
row bytes for 6 and 8 and then column bytes for 5 and 7. -/
theorem C5_witness :
    set_address_window noFail cfg53 (St.fresh []) 1 2 3 4 =
      write_command noFail
        { bus := 2, dc := 2, rst := 0,
          trace := [Ev.dcLow, Ev.write [0x2B], Ev.dcHigh, Ev.write [0, 6, 0, 8]],
          buf := [] }
        Instruction.ColumnAddressSet [0, 5, 0, 7] :=
  (C5_set_address_window_encoding noFail cfg53 (St.fresh []) 1 2 3 4
    (by decide) (by decide) (by decide) (by decide)).2
    { bus := 2, dc := 2, rst := 0,
      trace := [Ev.dcLow, Ev.write [0x2B], Ev.dcHigh, Ev.write [0, 6, 0, 8]],
      buf := [] }
    (by decide)

/-- C8: both streaming paths place each 16-bit color on the wire as two
bytes, high byte first: the buffer-fill loop of `fill_color` produces the
repeated `[hi, lo]` pattern, the `write_area` inner loop writes the high
byte then the low byte at consecutive indices, the byte pair of a value
below 2^16 is `[c / 256, c % 256]`, and color 0xF800 reaches the bus as
`[0xF8, 0x00]` in concrete runs of both paths. -/
theorem C8_pixel_wire_encoding :
    (∀ c : Nat, c < 65536 → hi8 c = c / 256 ∧ u8 c = c % 256) ∧
    (∀ c k : Nat, fillBufLoop (hi8 c) (u8 c) (List.replicate (2 * k) 0) =
      some (List.flatten (List.replicate k [hi8 c, u8 c]))) ∧
    (∀ (c : Nat) (buffer : List Nat), 2 ≤ buffer.length →
      waInner [c] buffer 0 0 = Sum.inl ((buffer.set 0 (hi8 c)).set 1 (u8 c), 2, 1)) ∧
    (hi8 0xF800 = 0xF8 ∧ u8 0xF800 = 0x00) ∧
    afterLastDcHigh (fill_color noFail { Config.default with width := 1, height := 1 }
      (St.fresh [0, 0]) 0xF800).1.trace = [Ev.write [0xF8, 0x00]] ∧
    afterLastDcHigh (write_area noFail Config.default
      (St.fresh [0, 0]) 0 0 1 1 [0xF800] 2).1.trace = [Ev.write [0xF8, 0x00]] := by
  refine ⟨?_, ?_, ?_, by decide, by decide, by decide⟩
  · intro c hc
    exact ⟨Nat.mod_eq_of_lt (by omega), rfl⟩
  · intro c k
    have h2 : (List.replicate (2 * k) (0 : Nat)).length % 2 = 0 := by simp
    have h := fillBufLoop_even (hi8 c) (u8 c) (List.replicate (2 * k) 0) h2
    have h3 : (List.replicate (2 * k) (0 : Nat)).length / 2 = k := by simp
    rw [h, h3]
  · intro c buffer hb
    have h0 : (0 : Nat) < buffer.length := by omega
    have h1 : 0 + 1 < (buffer.set 0 (hi8 c)).length := by rw [List.length_set]; omega
    show waInnerF [c] ([c].length + 1) buffer 0 0 = _
    rw [show [c].length + 1 = 1 + 1 from rfl]
    simp only [waInnerF]
    rw [if_pos ⟨h0, by simp⟩, show ([c].get? 0) = some c from rfl]
    split
    · next heq => simp at heq
    · next cv heq =>
      have hcv : cv = c := by simp at heq; exact heq.symm
      subst hcv
      rw [if_pos h1, if_neg (by simp)]

/-- Witness for C8: the byte pair of the red color 0xF800. -/
theorem C8_witness : hi8 0xF800 = 0xF800 / 256 ∧ u8 0xF800 = 0xF800 % 256 :=
  C8_pixel_wire_encoding.1 0xF800 (by decide)

/-- C2 counterexample: the claim reads `max_pixels_per_chunk` as half the
capacity of the caller-supplied buffer.  With a 4-byte buffer (2 pixels by
that reading) and 4 pixels to fill, the claim predicts
`ceil(4 / 2) = 2` data writes totalling 8 bytes; the code instead sizes its
first chunk from the fixed constant `MAX_DATA_LEN = 1152`, slices
`min(4, 1152) * 2 = 8` bytes from the 4-byte buffer, panics, and issues no
data-phase write at all. -/
theorem C2_counterexample :
    (fill_color noFail { Config.default with width := 4, height := 1 }
      (St.fresh [0, 0, 0, 0]) 5).2 = RRes.fault (Fault.bufSlice 8) ∧
    afterLastDcHigh (fill_color noFail { Config.default with width := 4, height := 1 }
      (St.fresh [0, 0, 0, 0]) 5).1.trace = [] := by
  decide

/-- C2 (amended): `max_pixels_per_chunk` is the fixed constant
`MAX_DATA_LEN = BUF_SIZE / 2 = 1152`, independent of the caller's buffer;
for every configuration with `width*height > 0` and every transfer buffer of
even length at least `min(width*height, MAX_DATA_LEN) * 2`, an error-free
`fill_color` run issues exactly `ceil(width*height / MAX_DATA_LEN)`
data-phase bus writes totalling `width*height*2` bytes, every chunk
`MAX_DATA_LEN * 2` bytes except possibly the last, whose byte length is the
remainder. -/
theorem C2_fill_color_chunk_accounting (cfg : Config) (st : St) (color : Nat)
    (h0 : 0 < cfg.width * cfg.height)
    (heven : st.buf.length % 2 = 0)
    (hcap : min (cfg.width * cfg.height) MAX_DATA_LEN * 2 ≤ st.buf.length) :
    ∃ st' bs, fill_color noFail cfg st color = (st', RRes.ok) ∧
      afterLastDcHigh st'.trace = List.map Ev.write bs ∧
      List.map List.length bs = chunkSizes (cfg.width * cfg.height) ∧
      bs.length = (cfg.width * cfg.height + (MAX_DATA_LEN - 1)) / MAX_DATA_LEN ∧
      (List.map List.length bs).sum = cfg.width * cfg.height * 2 ∧
      List.map List.length bs =
        List.replicate (cfg.width * cfg.height / MAX_DATA_LEN) (MAX_DATA_LEN * 2) ++
          (if cfg.width * cfg.height % MAX_DATA_LEN = 0 then []
           else [cfg.width * cfg.height % MAX_DATA_LEN * 2]) ∧
      MAX_DATA_LEN = BUF_SIZE / 2 ∧ MAX_DATA_LEN = 1152 := by
  obtain ⟨st', heq, htr⟩ := fill_color_noFail_spec cfg st color heven hcap
  have hpatlen :
      (List.flatten (List.replicate (st.buf.length / 2) [hi8 color, u8 color])).length =
        st.buf.length := by
    rw [flatten_replicate_pair_length]
    omega
  have hmap : List.map List.length
      ((chunkSizes (cfg.width * cfg.height)).map
        (fun k => (List.flatten (List.replicate (st.buf.length / 2) [hi8 color, u8 color])).take k)) =
      chunkSizes (cfg.width * cfg.height) := by
    rw [List.map_map]
    have hpt : ∀ k ∈ chunkSizes (cfg.width * cfg.height),
        (List.length ∘ fun k =>
          (List.flatten (List.replicate (st.buf.length / 2) [hi8 color, u8 color])).take k) k = k := by
      intro k hk
      have hle := chunkSizes_mem_le (cfg.width * cfg.height) k hk
      simp [List.length_take]
      omega
    rw [List.map_congr_left hpt, List.map_id']
  refine ⟨st',
    (chunkSizes (cfg.width * cfg.height)).map
      (fun k => (List.flatten (List.replicate (st.buf.length / 2) [hi8 color, u8 color])).take k),
    heq, ?_, hmap, ?_, ?_, ?_, rfl, rfl⟩
  · obtain ⟨xs, hxs⟩ := fillPrelSt_trace cfg st
    rw [htr, hxs, List.append_assoc, List.singleton_append,
      afterLastDcHigh_spec xs _ (chunkWrites_no_dcHigh _ _)]
    simp [chunkWrites, List.map_map, Function.comp]
  · rw [List.length_map, chunkSizes_length]
  · rw [hmap, chunkSizes_sum]
    exact Nat.mul_comm 2 _
  · rw [hmap]
    rfl

/-- Witness for C2 amended: a 3-pixel fill through a 6-byte buffer. -/
theorem C2_witness :
    ∃ st' bs, fill_color noFail cfg31 (St.fresh (List.replicate 6 0)) 0xF800 = (st', RRes.ok) ∧
      afterLastDcHigh st'.trace = List.map Ev.write bs ∧
      List.map List.length bs = chunkSizes (cfg31.width * cfg31.height) ∧
      bs.length = (cfg31.width * cfg31.height + (MAX_DATA_LEN - 1)) / MAX_DATA_LEN ∧
      (List.map List.length bs).sum = cfg31.width * cfg31.height * 2 ∧
      List.map List.length bs =
        List.replicate (cfg31.width * cfg31.height / MAX_DATA_LEN) (MAX_DATA_LEN * 2) ++
          (if cfg31.width * cfg31.height % MAX_DATA_LEN = 0 then []
           else [cfg31.width * cfg31.height % MAX_DATA_LEN * 2]) ∧
      MAX_DATA_LEN = BUF_SIZE / 2 ∧ MAX_DATA_LEN = 1152 :=
  C2_fill_color_chunk_accounting cfg31 (St.fresh (List.replicate 6 0)) 0xF800
    (by decide) (by decide) (by decide)

/-- C9: with a positive screen area, a `fill_color` run in the never-failing
environment avoids every out-of-bounds buffer access exactly when the
transfer buffer's length is even and at least
`min(width*height, MAX_DATA_LEN) * 2` — and that chunk bound comes from the
fixed constant `MAX_DATA_LEN = BUF_SIZE / 2 = 1152`, not from the buffer's
own length; the code performs no validation, it simply panics otherwise. -/
theorem C9_fill_color_buffer_precondition (cfg : Config) (st : St) (color : Nat)
    (hw : 0 < cfg.width) (hh : 0 < cfg.height) :
    ((fill_color noFail cfg st color).2.isFault = false ↔
      (st.buf.length % 2 = 0 ∧
        min (cfg.width * cfg.height) MAX_DATA_LEN * 2 ≤ st.buf.length)) ∧
    MAX_DATA_LEN = BUF_SIZE / 2 ∧ BUF_SIZE = 2304 ∧ MAX_DATA_LEN = 1152 := by
  refine ⟨⟨?_, ?_⟩, rfl, rfl, rfl⟩
  · intro hf
    by_cases heven : st.buf.length % 2 = 0
    · refine ⟨heven, ?_⟩
      by_contra hcap
      have hbl := fillBufLoop_even (hi8 color) (u8 color) st.buf heven
      have h1 : fill_color noFail cfg st color =
          fillLoop noFail
            { fillPrelSt cfg st with
              buf := List.flatten (List.replicate (st.buf.length / 2) [hi8 color, u8 color]) }
            (cfg.width * cfg.height) 0 := by
        rw [fill_color_tail, fillPrelSt_buf, hbl]
      have htot : 0 < cfg.width * cfg.height := Nat.mul_pos hw hh
      have hpatlen :
          (List.flatten (List.replicate (st.buf.length / 2) [hi8 color, u8 color])).length =
            st.buf.length := by
        rw [flatten_replicate_pair_length]
        omega
      have hflt := fillLoopF_fault noFail (cfg.width * cfg.height - 0) (cfg.width * cfg.height)
        { fillPrelSt cfg st with
          buf := List.flatten (List.replicate (st.buf.length / 2) [hi8 color, u8 color]) }
        htot
        (by show (List.flatten (List.replicate (st.buf.length / 2) [hi8 color, u8 color])).length <
              min (cfg.width * cfg.height) MAX_DATA_LEN * 2
            rw [hpatlen]
            omega)
      rw [h1] at hf
      simp only [fillLoop] at hf
      rw [hflt] at hf
      simp [RRes.isFault] at hf
    · have hodd : st.buf.length % 2 = 1 := by omega
      have hbl := fillBufLoop_odd (hi8 color) (u8 color) st.buf hodd
      have h1 : fill_color noFail cfg st color =
          (fillPrelSt cfg st, RRes.fault (Fault.bufIndex 1)) := by
        rw [fill_color_tail, fillPrelSt_buf, hbl]
      rw [h1] at hf
      simp [RRes.isFault] at hf
  · rintro ⟨heven, hcap⟩
    obtain ⟨st', heq, -⟩ := fill_color_noFail_spec cfg st color heven hcap
    rw [heq]
    rfl

/-- Witness for C9: a 2-pixel fill through a 4-byte buffer is in bounds. -/
theorem C9_witness :
    (fill_color noFail cfg21 (St.fresh [0, 0, 0, 0]) 7).2.isFault = false :=
  (C9_fill_color_buffer_precondition cfg21 (St.fresh [0, 0, 0, 0]) 7
    (by decide) (by decide)).1.mpr (by decide)

end GC9D01
